import Mathlib

/-!
# Fluxur timelock: verification of the specification against the code

This development embeds the Fluxur fee-timelock system:

* the on-chain timelock program (`CreateLock` / `Withdraw` over a ledger of
  lock records and lamport balances), modelled from the spec since only its
  TypeScript test suite is present in the repository snapshot;
* the program-derived-address (PDA) computations of the test suite, the
  server API route and the client page;
* the off-chain mirror store (`fee_locks` table) operations of the
  `/api/fee-locks` and `/api/fee-locks/withdraw` routes;
* the client page's withdraw gating logic (`canWithdraw`, `feesDetected`,
  countdown).
-/

namespace Fluxur

/-- Addresses (public keys, PDAs) are modelled as natural numbers. -/
abbrev Address := Nat

/-- The program's enumerated error codes (spec section 6), together with the
host's generic failures: re-creating an existing account, and an instruction
naming a lock record that does not exist. -/
inductive TimelockError where
  | UnlockTimeInPast
  | LockNotExpired
  | InvalidCreator
  | AccountAlreadyExists
  | LockRecordMissing
deriving DecidableEq, Repr

/-- The on-chain lock record (`LockAccount` in the test suite): creator,
mint (asset identifier) and unlock timestamp. It has no further fields —
in particular no withdrawn flag. -/
structure LockAccount where
  creator : Address
  mint : Address
  unlockTs : Int
deriving DecidableEq, Repr

/-- The host ledger: keyed lock-record storage (indexed by the mint, since
the lock PDA is a function of the mint alone) and lamport balances. -/
structure Ledger where
  locks : Address → Option LockAccount
  balances : Address → Nat

/-- Bytes of an ASCII seed string, as produced by `Buffer.from("...")`. -/
def asciiBytes (s : String) : List Nat :=
  s.data.map Char.toNat

/-- Modelled from the spec: the 32-byte serialization `mint.toBuffer()` of a
public key, an injective encoding of the key. -/
def mintToBuffer (pk : Address) : List Nat := [pk]

/-- Injective encoding of a byte list into a natural number. -/
def encodeNatList : List Nat → Nat
  | [] => 0
  | n :: ns => Nat.pair n (encodeNatList ns) + 1

/-- Injective encoding of a seed list into a natural number. -/
def encodeSeeds : List (List Nat) → Nat
  | [] => 0
  | s :: ss => Nat.pair (encodeNatList s) (encodeSeeds ss) + 1

/-- Modelled from the spec: the host SDK's `PublicKey.findProgramAddressSync`
(spec section 4.1 "Address Deriver"): a deterministic pure function of the
seed list and the program id, returning a derived address and a bump byte.
The SDK itself is external to the repository; what matters to the claims is
that it is one fixed pure function, called with identical arguments. -/
def findProgramAddressSync (seeds : List (List Nat)) (pid : Nat) : Nat × Nat :=
  (Nat.pair pid (encodeSeeds seeds), 255)

/-- Modelled from the spec: the deployed timelock program id (the repository
reads it from configuration / `@/lib/anchorClient`, not in the snapshot). -/
def deployedProgramId : Nat := 777

/-- The vault PDA for a mint: seeds `["vault", mint]` under the program id. -/
def vaultAddress (mint : Address) : Address :=
  (findProgramAddressSync [asciiBytes "vault", mintToBuffer mint] deployedProgramId).1

/-- Lamport transfer with the host's semantics: debit the source, credit the
destination. -/
def transferLamports (bal : Address → Nat) (src dst : Address) (amt : Nat) :
    Address → Nat :=
  let debited := fun a => if a = src then bal a - amt else bal a
  fun a => if a = dst then debited a + amt else debited a

/-- Modelled from the spec: the on-chain `CreateLock` instruction
(`initialize_lock`; spec section 4.2, exercised by the test suite in
`src/unnamed/part_000`). The program source is not in the repository
snapshot. Preconditions in the spec's order: the unlock time must be
strictly in the future (violation: `UnlockTimeInPast`), and no lock record
may already exist for the mint (violation: the host's creation failure).
Effect: the record is created with `creator` set to the paying signer; the
vault comes into existence with zero balance, so balances are unchanged. -/
def createLock (st : Ledger) (now : Int) (payer mint : Address)
    (unlockTs : Int) : Except TimelockError Ledger :=
  if unlockTs ≤ now then
    .error .UnlockTimeInPast
  else
    match st.locks mint with
    | some _ => .error .AccountAlreadyExists
    | none =>
        .ok { st with
                locks := fun m =>
                  if m = mint then some ⟨payer, mint, unlockTs⟩
                  else st.locks m }

/-- Modelled from the spec: the on-chain `Withdraw` instruction (spec
section 4.3, exercised by the test suite in `src/unnamed/part_000`). The
program source is not in the repository snapshot. Checks, in the spec's
order: the supplied creator account must equal the stored creator
(`InvalidCreator`), then the current time must have reached the unlock time
(`LockNotExpired`). Effect: the entire live vault balance is transferred to
the stored creator; the caller may be any signer and is not a recipient;
the lock record is not modified. -/
def withdraw (st : Ledger) (now : Int) (caller mint creatorArg : Address) :
    Except TimelockError Ledger :=
  match st.locks mint with
  | none => .error .LockRecordMissing
  | some lockAcc =>
    if creatorArg ≠ lockAcc.creator then
      .error .InvalidCreator
    else if now < lockAcc.unlockTs then
      .error .LockNotExpired
    else
      .ok { st with
              balances :=
                transferLamports st.balances (vaultAddress mint) creatorArg
                  (st.balances (vaultAddress mint)) }

/-- A plain value transfer into an account, outside the program's two
instructions (how the test suite deposits into the vault with
`SystemProgram.transfer`). -/
def deposit (st : Ledger) (src dst : Address) (amt : Nat) : Ledger :=
  { st with balances := transferLamports st.balances src dst amt }

/-- Modelled from the spec: a withdraw transaction as submitted by a caller —
the host charges the caller the transaction fee, then the instruction runs. -/
def withdrawTx (st : Ledger) (now : Int) (fee : Nat)
    (caller mint creatorArg : Address) : Except TimelockError Ledger :=
  let st1 : Ledger :=
    { st with balances := fun a =>
        if a = caller then st.balances a - fee else st.balances a }
  withdraw st1 now caller mint creatorArg

/-- Whether a transaction result is a success. -/
def txOk (r : Except TimelockError Ledger) : Bool :=
  match r with
  | .ok _ => true
  | .error _ => false

/-- The transactions that can touch a lock record or a vault: the program's
two instructions plus plain value transfers (deposits). A failing
transaction is rejected whole by the host, leaving the ledger unchanged. -/
inductive LedgerEvent where
  | create (now : Int) (payer mint : Address) (unlockTs : Int)
  | withdraw (now : Int) (caller mint creatorArg : Address)
  | deposit (src dst : Address) (amt : Nat)

/-- Apply one transaction to the ledger; a rejected transaction has no
effect. -/
def applyTx (st : Ledger) : LedgerEvent → Ledger
  | .create now payer mint unlockTs =>
      match createLock st now payer mint unlockTs with
      | .ok st' => st'
      | .error _ => st
  | .withdraw now caller mint creatorArg =>
      match withdraw st now caller mint creatorArg with
      | .ok st' => st'
      | .error _ => st
  | .deposit src dst amt => deposit st src dst amt

/-- Run a sequence of transactions. -/
def runLedger (st : Ledger) (es : List LedgerEvent) : Ledger :=
  es.foldl applyTx st

/-- The record returned by the test suite's `derivePDAs` helper
(src/unnamed/part_000, lines 23-33). -/
structure DerivedPDAs where
  lockPda : Nat
  vaultPda : Nat
  lockBump : Nat
  vaultBump : Nat

/-- The test suite's `derivePDAs(mint)`: lock PDA from seeds
`[Buffer.from("lock"), mint.toBuffer()]` and vault PDA from seeds
`[Buffer.from("vault"), mint.toBuffer()]`, both under the program id. -/
def derivePDAs (programId : Nat) (mint : Address) : DerivedPDAs :=
  let lock := findProgramAddressSync [asciiBytes "lock", mintToBuffer mint] programId
  let vault := findProgramAddressSync [asciiBytes "vault", mintToBuffer mint] programId
  ⟨lock.1, vault.1, lock.2, vault.2⟩

/-- The record returned by the API route's `derivePdas` helper
(src/unnamed/part_005, lines 213-228). -/
structure ApiPdas where
  programId : Nat
  mintPk : Nat
  lockPda : Nat
  vaultPda : Nat

/-- The server API route's `derivePdas(mint)` (POST `/api/fee-locks`):
same two `findProgramAddressSync` calls, with the program id read from the
environment. -/
def derivePdas (programId : Nat) (mint : Address) : ApiPdas :=
  let mintPk := mint
  let lockPda :=
    (findProgramAddressSync [asciiBytes "lock", mintToBuffer mintPk] programId).1
  let vaultPda :=
    (findProgramAddressSync [asciiBytes "vault", mintToBuffer mintPk] programId).1
  ⟨programId, mintPk, lockPda, vaultPda⟩

/-- The record computed by the client page's `pdas` memo
(src/src/app/commit/[id]/lock/page.tsx, lines 94-104). -/
structure ClientPdas where
  mintPk : Nat
  lockPda : Nat
  vaultPda : Nat

/-- The client page's `pdas` memo: same two `findProgramAddressSync` calls
under `PROGRAM_ID` from the anchor client module. -/
def pdasClient (PROGRAM_ID : Nat) (mint : Address) : ClientPdas :=
  let mintPk := mint
  let lockPda :=
    (findProgramAddressSync [asciiBytes "lock", mintToBuffer mintPk] PROGRAM_ID).1
  let vaultPda :=
    (findProgramAddressSync [asciiBytes "vault", mintToBuffer mintPk] PROGRAM_ID).1
  ⟨mintPk, lockPda, vaultPda⟩

/-- A row of the off-chain mirror store's `fee_locks` table. -/
structure FeeLockRow where
  id : Nat
  mint : String
  creator_wallet : String
  vault_address : String
  unlock_at : String
  status : String
  withdrawn_at : Option String
  withdraw_tx : Option String
deriving DecidableEq, Repr

/-- The POST `/api/fee-locks` existing-lock query: rows matching
`.eq("mint", mint).eq("status", "active")`. -/
def isActiveLockFor (mint : String) (r : FeeLockRow) : Bool :=
  r.mint == mint && r.status == "active"

/-- POST `/api/fee-locks` (src/unnamed/part_005, lines 274-303), the part
that touches `fee_locks`: refuse (409) when an active lock already exists
for the mint, otherwise insert a row with `status = "active"` and no
withdrawal fields. -/
def postFeeLocks (table : List FeeLockRow) (nextId : Nat)
    (mint creatorWallet vaultAddr unlockAt : String) :
    Option (List FeeLockRow) :=
  if (table.filter (isActiveLockFor mint)).isEmpty then
    some (table ++ [⟨nextId, mint, creatorWallet, vaultAddr, unlockAt,
      "active", none, none⟩])
  else
    none

/-- The update applied to each row by POST `/api/fee-locks/withdraw`
(src/unnamed/part_006, lines 93-105): rows matching
`.eq("mint", mint).eq("creator_wallet", cw).eq("status", "active")` get
`status = "withdrawn"`, `withdrawn_at` and `withdraw_tx` set; other rows
are untouched. -/
def markWithdrawnRow (mint creatorWallet nowIso tx : String)
    (r : FeeLockRow) : FeeLockRow :=
  if r.mint == mint && r.creator_wallet == creatorWallet &&
      r.status == "active" then
    { r with status := "withdrawn", withdrawn_at := some nowIso,
             withdraw_tx := some tx }
  else r

/-- POST `/api/fee-locks/withdraw`, the part that touches `fee_locks`. -/
def postFeeLocksWithdraw (table : List FeeLockRow)
    (mint creatorWallet nowIso tx : String) : List FeeLockRow :=
  table.map (markWithdrawnRow mint creatorWallet nowIso tx)

/-- The operations of the mirror store that write the `fee_locks` table. -/
inductive MirrorEvent where
  | createRow (nextId : Nat) (mint creatorWallet vaultAddr unlockAt : String)
  | markWithdrawn (mint creatorWallet nowIso tx : String)

/-- Apply one mirror operation; a refused insert leaves the table as it
was. -/
def applyMirrorEvent (table : List FeeLockRow) :
    MirrorEvent → List FeeLockRow
  | .createRow nextId mint cw va ua =>
      match postFeeLocks table nextId mint cw va ua with
      | some t' => t'
      | none => table
  | .markWithdrawn mint cw ts tx => postFeeLocksWithdraw table mint cw ts tx

/-- Run a sequence of mirror operations. -/
def runMirror (table : List FeeLockRow) (es : List MirrorEvent) :
    List FeeLockRow :=
  es.foldl applyMirrorEvent table

/-- The client page's `FeeLock` type (page.tsx, lines 37-45). -/
structure FeeLock where
  id : Nat
  vault_address : String
  unlock_at : String
  status : String
  created_at : String
  withdrawn_at : Option String
  withdraw_tx : Option String
deriving DecidableEq, Repr

/-- The client page's vault-balance state; the derived `sol` float is
display-only and omitted. -/
structure VaultBalance where
  lamports : Nat
deriving DecidableEq, Repr

/-- page.tsx line 82: `10_000_000` lamports, i.e. 0.01 SOL. -/
def FEES_DETECTED_THRESHOLD_LAMPORTS : Nat := 10000000

/-- page.tsx line 83:
`vaultBalance && vaultBalance.lamports >= FEES_DETECTED_THRESHOLD_LAMPORTS`. -/
def feesDetected (vaultBalance : Option VaultBalance) : Bool :=
  match vaultBalance with
  | none => false
  | some vb => decide (FEES_DETECTED_THRESHOLD_LAMPORTS ≤ vb.lamports)

/-- The client page's countdown state. -/
structure Countdown where
  days : Int
  hours : Int
  minutes : Int
  seconds : Int
  expired : Bool
deriving DecidableEq, Repr

/-- page.tsx `calculateCountdown` (lines 128-144): `diff` is the unlock
time minus the time now, both in milliseconds; `expired` exactly when
`diff ≤ 0`. -/
def calculateCountdown (unlockTimeMs nowMs : Int) : Countdown :=
  let diff := unlockTimeMs - nowMs
  if diff ≤ 0 then ⟨0, 0, 0, 0, true⟩
  else
    ⟨diff / (1000 * 60 * 60 * 24),
     (diff % (1000 * 60 * 60 * 24)) / (1000 * 60 * 60),
     (diff % (1000 * 60 * 60)) / (1000 * 60),
     (diff % (1000 * 60)) / 1000,
     false⟩

/-- page.tsx `WithdrawSection` (lines 362-368): the withdraw button is
offered iff a lock is present with `status === "active"`, `feesDetected`
holds, and `countdown?.expired === true`. -/
def canWithdraw (lock : Option FeeLock) (vaultBalance : Option VaultBalance)
    (countdown : Option Countdown) : Bool :=
  match lock with
  | none => false
  | some l =>
      l.status == "active" && feesDetected vaultBalance &&
        (match countdown with
         | some c => c.expired
         | none => false)

/-- A concrete lock record used to instantiate the theorems: creator `5`,
mint `9`, unlock timestamp `100`. -/
def sampleLock : LockAccount := ⟨5, 9, 100⟩

/-- A concrete ledger holding `sampleLock` at mint `9`, every account funded
with `1000` lamports. -/
def sampleLedger : Ledger :=
  { locks := fun m => if m = 9 then some sampleLock else none
    balances := fun _ => 1000 }

/-- Balance of the destination after a transfer, when it differs from the
source. -/
lemma transferLamports_dst (bal : Address → Nat) (src dst : Address)
    (amt : Nat) (h : dst ≠ src) :
    transferLamports bal src dst amt dst = bal dst + amt := by
  simp [transferLamports, h]

/-- Balance of the source after a transfer, when it differs from the
destination. -/
lemma transferLamports_src (bal : Address → Nat) (src dst : Address)
    (amt : Nat) (h : src ≠ dst) :
    transferLamports bal src dst amt src = bal src - amt := by
  simp [transferLamports, h]

/-- Balance of an uninvolved account after a transfer. -/
lemma transferLamports_other (bal : Address → Nat) (src dst a : Address)
    (amt : Nat) (h1 : a ≠ src) (h2 : a ≠ dst) :
    transferLamports bal src dst amt a = bal a := by
  simp [transferLamports, h1, h2]

/-- A successful withdraw is exactly the transfer of the live vault balance
to the stored creator, on a ledger whose lock records are untouched. -/
lemma withdraw_ok (st : Ledger) (now : Int) (caller mint : Address)
    (lockAcc : LockAccount) (hrec : st.locks mint = some lockAcc)
    (ht : lockAcc.unlockTs ≤ now) :
    withdraw st now caller mint lockAcc.creator =
      .ok { st with
              balances :=
                transferLamports st.balances (vaultAddress mint)
                  lockAcc.creator (st.balances (vaultAddress mint)) } := by
  simp [withdraw, hrec, not_lt.mpr ht]

/-- A successful withdraw never changes the lock-record storage. -/
lemma withdraw_ok_locks (st : Ledger) (now : Int)
    (caller mint creatorArg : Address) (st' : Ledger)
    (h : withdraw st now caller mint creatorArg = .ok st') :
    st'.locks = st.locks := by
  cases hsm : st.locks mint with
  | none => simp [withdraw, hsm] at h
  | some lockAcc =>
      by_cases hne : creatorArg ≠ lockAcc.creator
      · simp [withdraw, hsm, hne] at h
      · by_cases hlt : now < lockAcc.unlockTs
        · simp [withdraw, hsm, hne, hlt] at h
        · simp [withdraw, hsm, hne, hlt] at h
          rw [← h]

/-- One transaction never deletes or changes an existing lock record. -/
lemma applyTx_locks_mono (st : Ledger) (e : LedgerEvent) (mint : Address)
    (r : LockAccount) (h : st.locks mint = some r) :
    (applyTx st e).locks mint = some r := by
  cases e with
  | create now payer mint' unlockTs =>
      simp only [applyTx]
      cases hc : createLock st now payer mint' unlockTs with
      | error err => exact h
      | ok st' =>
          show st'.locks mint = some r
          by_cases hle : unlockTs ≤ now
          · simp [createLock, hle] at hc
          · cases hsm : st.locks mint' with
            | some q => simp [createLock, hle, hsm] at hc
            | none =>
                simp [createLock, hle, hsm] at hc
                rw [← hc]
                by_cases hmm : mint = mint'
                · rw [hmm, hsm] at h; cases h
                · simpa [hmm] using h
  | withdraw now caller mint' creatorArg =>
      simp only [applyTx]
      cases hw : withdraw st now caller mint' creatorArg with
      | error err => exact h
      | ok st' =>
          show st'.locks mint = some r
          rw [withdraw_ok_locks st now caller mint' creatorArg st' hw]
          exact h
  | deposit src dst amt => exact h

/-- No sequence of transactions deletes or changes an existing lock
record. -/
lemma runLedger_locks_mono (es : List LedgerEvent) :
    ∀ (st : Ledger) (mint : Address) (r : LockAccount),
      st.locks mint = some r → (runLedger st es).locks mint = some r := by
  induction es with
  | nil => intro st mint r h; exact h
  | cons e es ih =>
      intro st mint r h
      exact ih (applyTx st e) mint r (applyTx_locks_mono st e mint r h)

/-- The countdown is expired exactly when the unlock time is not in the
future. -/
lemma calculateCountdown_expired (u n : Int) :
    (calculateCountdown u n).expired = true ↔ u ≤ n := by
  unfold calculateCountdown
  by_cases h : u - n ≤ 0
  · rw [if_pos h]
    simpa using by omega
  · rw [if_neg h]
    simpa using by omega

/-- A row that is already `"withdrawn"` persists, unchanged, through every
later mirror operation. -/
lemma withdrawnRow_persists (es : List MirrorEvent) :
    ∀ (table : List FeeLockRow) (r : FeeLockRow), r ∈ table →
      r.status = "withdrawn" → r ∈ runMirror table es := by
  induction es with
  | nil => intro table r hr _; exact hr
  | cons e es ih =>
      intro table r hr hw
      have hstep : r ∈ applyMirrorEvent table e := by
        cases e with
        | createRow nextId mint cw va ua =>
            simp only [applyMirrorEvent]
            cases hpost : postFeeLocks table nextId mint cw va ua with
            | none => exact hr
            | some t' =>
                show r ∈ t'
                by_cases hemp :
                    (table.filter (isActiveLockFor mint)).isEmpty = true
                · simp [postFeeLocks, hemp] at hpost
                  rw [← hpost]
                  exact List.mem_append.mpr (Or.inl hr)
                · simp [postFeeLocks, hemp] at hpost
        | markWithdrawn mint cw ts tx =>
            show r ∈ postFeeLocksWithdraw table mint cw ts tx
            have hcond : (r.mint == mint && r.creator_wallet == cw &&
                r.status == "active") = false := by
              simp [hw]
            have hfix : markWithdrawnRow mint cw ts tx r = r := by
              simp [markWithdrawnRow, hcond]
            unfold postFeeLocksWithdraw
            rw [← hfix]
            exact List.mem_map_of_mem _ hr
      exact ih (applyMirrorEvent table e) r hstep hw

end Fluxur

namespace Fluxur

/-- C2: for every `unlock_time ≤ current_time` at execution — equality
included — CreateLock fails with `UnlockTimeInPast` and creates no record
(the whole transaction is rejected, so no state is produced). -/
theorem c2_create_unlock_time_in_past (st : Ledger) (now : Int)
    (payer mint : Address) (unlockTs : Int) (h : unlockTs ≤ now) :
    createLock st now payer mint unlockTs = .error .UnlockTimeInPast := by
  simp [createLock, h]

theorem c2_witness :
    (100 : Int) ≤ 100 ∧
      createLock ⟨fun _ => none, fun _ => 0⟩ 100 1 2 100 =
        .error .UnlockTimeInPast :=
  ⟨by decide, c2_create_unlock_time_in_past ⟨fun _ => none, fun _ => 0⟩ 100 1 2 100 (by decide)⟩

/-- C1: on a ledger holding a lock record, a Withdraw naming the stored
creator fails with `LockNotExpired` whenever the current time is strictly
below the unlock time — for every caller — and it succeeds exactly when the
current time has reached the unlock time. A failing withdraw returns an
error, so the transaction is discarded and no funds move. -/
theorem c1_withdraw_time_gate (st : Ledger) (now : Int)
    (caller mint creatorArg : Address) (lockAcc : LockAccount)
    (hrec : st.locks mint = some lockAcc)
    (hcr : creatorArg = lockAcc.creator) :
    (now < lockAcc.unlockTs →
      withdraw st now caller mint creatorArg = .error .LockNotExpired) ∧
    (txOk (withdraw st now caller mint creatorArg) = true ↔
      lockAcc.unlockTs ≤ now) := by
  subst hcr
  constructor
  · intro hlt
    simp [withdraw, hrec, hlt]
  · by_cases hlt : now < lockAcc.unlockTs
    · simp [withdraw, hrec, hlt, txOk]
    · rw [withdraw_ok st now caller mint lockAcc hrec (not_lt.mp hlt)]
      simp [txOk, not_lt.mp hlt]

theorem c1_witness :
    sampleLedger.locks 9 = some sampleLock ∧
      sampleLock.creator = sampleLock.creator ∧
      ((50 : Int) < sampleLock.unlockTs →
        withdraw sampleLedger 50 7 9 sampleLock.creator =
          .error .LockNotExpired) ∧
      (txOk (withdraw sampleLedger 50 7 9 sampleLock.creator) = true ↔
        sampleLock.unlockTs ≤ (50 : Int)) :=
  ⟨by decide, rfl,
    (c1_withdraw_time_gate sampleLedger 50 7 9 sampleLock.creator sampleLock
      (by decide) rfl).1,
    (c1_withdraw_time_gate sampleLedger 50 7 9 sampleLock.creator sampleLock
      (by decide) rfl).2⟩

/-- C3: a Withdraw whose supplied creator account differs from the creator
stored in the lock record fails with `InvalidCreator` for every current
time and every balance assignment — in particular even when the unlock time
has passed and the vault balance is positive, so the creator check takes
priority over the time check. -/
theorem c3_withdraw_invalid_creator (st : Ledger) (now : Int)
    (caller mint creatorArg : Address) (lockAcc : LockAccount)
    (hrec : st.locks mint = some lockAcc)
    (hne : creatorArg ≠ lockAcc.creator) :
    withdraw st now caller mint creatorArg = .error .InvalidCreator := by
  simp [withdraw, hrec, hne]

theorem c3_witness :
    sampleLedger.locks 9 = some sampleLock ∧
      (42 : Address) ≠ sampleLock.creator ∧
      sampleLock.unlockTs ≤ (500 : Int) ∧
      0 < sampleLedger.balances (vaultAddress 9) ∧
      withdraw sampleLedger 500 7 9 42 = .error .InvalidCreator :=
  ⟨by decide, by decide, by decide, by decide,
    c3_withdraw_invalid_creator sampleLedger 500 7 9 42 sampleLock
      (by decide) (by decide)⟩

/-- C4: a successful Withdraw transaction transfers the entire live vault
balance to the stored creator; the caller, when distinct from the creator,
receives nothing and its balance decreases exactly by the transaction fee it
paid — at most the transaction cost. -/
theorem c4_withdraw_pays_creator (st : Ledger) (now : Int) (fee : Nat)
    (caller mint : Address) (lockAcc : LockAccount)
    (hrec : st.locks mint = some lockAcc)
    (ht : lockAcc.unlockTs ≤ now)
    (hc1 : caller ≠ lockAcc.creator)
    (hc2 : caller ≠ vaultAddress mint)
    (hc3 : lockAcc.creator ≠ vaultAddress mint)
    (hfee : fee ≤ st.balances caller) :
    ∃ st', withdrawTx st now fee caller mint lockAcc.creator = .ok st' ∧
      st'.balances lockAcc.creator =
        st.balances lockAcc.creator + st.balances (vaultAddress mint) ∧
      st'.balances (vaultAddress mint) = 0 ∧
      st'.balances caller + fee = st.balances caller := by
  unfold withdrawTx
  set st1 : Ledger :=
    { st with balances := fun a =>
        if a = caller then st.balances a - fee else st.balances a } with hst1
  have hrec1 : st1.locks mint = some lockAcc := hrec
  rw [withdraw_ok st1 now caller mint lockAcc hrec1 ht]
  refine ⟨_, rfl, ?_, ?_, ?_⟩ <;> dsimp only
  · rw [transferLamports_dst _ _ _ _ hc3]
    simp [hst1, Ne.symm hc1, (Ne.symm hc2 : vaultAddress mint ≠ caller)]
  · rw [transferLamports_src _ _ _ _ (Ne.symm hc3)]
    simp
  · rw [transferLamports_other _ _ _ _ _ hc2 hc1]
    simp [hst1, Nat.sub_add_cancel hfee]

theorem c4_witness :
    sampleLedger.locks 9 = some sampleLock ∧
      sampleLock.unlockTs ≤ (500 : Int) ∧
      (7 : Address) ≠ sampleLock.creator ∧
      (7 : Address) ≠ vaultAddress 9 ∧
      sampleLock.creator ≠ vaultAddress 9 ∧
      (3 : Nat) ≤ sampleLedger.balances 7 ∧
      ∃ st', withdrawTx sampleLedger 500 3 7 9 sampleLock.creator = .ok st' ∧
        st'.balances sampleLock.creator =
          sampleLedger.balances sampleLock.creator +
            sampleLedger.balances (vaultAddress 9) ∧
        st'.balances (vaultAddress 9) = 0 ∧
        st'.balances 7 + 3 = sampleLedger.balances 7 :=
  ⟨by decide, by decide, by decide, by decide, by decide, by decide,
    c4_withdraw_pays_creator sampleLedger 500 3 7 9 sampleLock
      (by decide) (by decide) (by decide) (by decide) (by decide) (by decide)⟩

/-- C5: a CreateLock whose unlock time is strictly in the future, on a mint
with no existing record, succeeds; the persisted creator equals the paying
signer. The instruction carries no creator argument at all (only `payer`,
`mint`, `unlockTs`), so no user-supplied value can make the stored creator
any other address; balances are untouched. -/
theorem c5_create_sets_creator_to_signer (st : Ledger) (now : Int)
    (payer mint : Address) (unlockTs : Int) (hfut : now < unlockTs)
    (hnone : st.locks mint = none) :
    ∃ st', createLock st now payer mint unlockTs = .ok st' ∧
      st'.locks mint = some ⟨payer, mint, unlockTs⟩ ∧
      st'.balances = st.balances := by
  unfold createLock
  rw [if_neg (not_le.mpr hfut), hnone]
  exact ⟨_, rfl, by simp, rfl⟩

theorem c5_witness :
    (10 : Int) < 90 ∧
      sampleLedger.locks 4 = none ∧
      ∃ st', createLock sampleLedger 10 6 4 90 = .ok st' ∧
        st'.locks 4 = some ⟨6, 4, 90⟩ ∧
        st'.balances = sampleLedger.balances :=
  ⟨by decide, by decide,
    c5_create_sets_creator_to_signer sampleLedger 10 6 4 90
      (by decide) (by decide)⟩

/-- C6: a successful Withdraw leaves the lock-record storage — hence every
field of the lock record — unchanged, and records no withdrawn flag; a
subsequent deposit into the vault followed by another Withdraw (time still
past the unlock time) succeeds again and moves the then-current vault
balance to the creator. -/
theorem c6_withdraw_frame_and_repeatable (st : Ledger) (now1 now2 : Int)
    (caller1 caller2 src mint : Address) (amt : Nat) (lockAcc : LockAccount)
    (hrec : st.locks mint = some lockAcc)
    (ht1 : lockAcc.unlockTs ≤ now1) (ht2 : lockAcc.unlockTs ≤ now2)
    (hcv : lockAcc.creator ≠ vaultAddress mint) :
    ∃ st1, withdraw st now1 caller1 mint lockAcc.creator = .ok st1 ∧
      st1.locks = st.locks ∧
      ∃ st3,
        withdraw (deposit st1 src (vaultAddress mint) amt) now2 caller2 mint
            lockAcc.creator = .ok st3 ∧
        st3.locks = st.locks ∧
        st3.balances lockAcc.creator =
          (deposit st1 src (vaultAddress mint) amt).balances lockAcc.creator +
            (deposit st1 src (vaultAddress mint) amt).balances
              (vaultAddress mint) ∧
        st3.balances (vaultAddress mint) = 0 := by
  rw [withdraw_ok st now1 caller1 mint lockAcc hrec ht1]
  refine ⟨_, rfl, rfl, ?_⟩
  set st1 : Ledger :=
    { st with
        balances :=
          transferLamports st.balances (vaultAddress mint) lockAcc.creator
            (st.balances (vaultAddress mint)) } with hst1
  have hrec2 : (deposit st1 src (vaultAddress mint) amt).locks mint =
      some lockAcc := hrec
  rw [withdraw_ok (deposit st1 src (vaultAddress mint) amt) now2 caller2 mint
    lockAcc hrec2 ht2]
  refine ⟨_, rfl, rfl, ?_, ?_⟩ <;> dsimp only
  · rw [transferLamports_dst _ _ _ _ hcv]
  · rw [transferLamports_src _ _ _ _ (Ne.symm hcv)]
    simp

theorem c6_witness :
    sampleLedger.locks 9 = some sampleLock ∧
      sampleLock.unlockTs ≤ (200 : Int) ∧
      sampleLock.unlockTs ≤ (300 : Int) ∧
      sampleLock.creator ≠ vaultAddress 9 ∧
      ∃ st1, withdraw sampleLedger 200 7 9 sampleLock.creator = .ok st1 ∧
        st1.locks = sampleLedger.locks ∧
        ∃ st3,
          withdraw (deposit st1 3 (vaultAddress 9) 40) 300 8 9
              sampleLock.creator = .ok st3 ∧
          st3.locks = sampleLedger.locks ∧
          st3.balances sampleLock.creator =
            (deposit st1 3 (vaultAddress 9) 40).balances sampleLock.creator +
              (deposit st1 3 (vaultAddress 9) 40).balances (vaultAddress 9) ∧
          st3.balances (vaultAddress 9) = 0 :=
  ⟨by decide, by decide, by decide, by decide,
    c6_withdraw_frame_and_repeatable sampleLedger 200 300 7 8 3 9 40
      sampleLock (by decide) (by decide) (by decide) (by decide)⟩

/-- C7: once a lock record exists for a mint, every further CreateLock for
that mint fails, and no sequence of transactions — creations, withdrawals,
deposits — ever deletes or changes the record: at most one lock record ever
exists per asset identifier. -/
theorem c7_lock_record_unique_forever (st : Ledger) (mint : Address)
    (r : LockAccount) (h : st.locks mint = some r) :
    (∀ now payer unlockTs,
        txOk (createLock st now payer mint unlockTs) = false) ∧
    ∀ es, (runLedger st es).locks mint = some r := by
  constructor
  · intro now payer unlockTs
    by_cases hle : unlockTs ≤ now
    · simp [createLock, hle, txOk]
    · simp [createLock, hle, h, txOk]
  · intro es
    exact runLedger_locks_mono es st mint r h

theorem c7_witness :
    sampleLedger.locks 9 = some sampleLock ∧
      txOk (createLock sampleLedger 0 6 9 500) = false ∧
      (runLedger sampleLedger
          [.deposit 3 (vaultAddress 9) 50,
           .withdraw 200 7 9 5,
           .create 0 6 9 500]).locks 9 = some sampleLock :=
  ⟨by decide,
    (c7_lock_record_unique_forever sampleLedger 9 sampleLock (by decide)).1
      0 6 500,
    (c7_lock_record_unique_forever sampleLedger 9 sampleLock (by decide)).2
      [.deposit 3 (vaultAddress 9) 50, .withdraw 200 7 9 5,
       .create 0 6 9 500]⟩

/-- C8: the three independent PDA derivations — test suite `derivePDAs`,
API route `derivePdas`, client page `pdas` memo — are the same pure
function of the program id and the mint: for every mint they compute
identical lock addresses (seeds `["lock", mint]`) and identical vault
addresses (seeds `["vault", mint]`). -/
theorem c8_pda_derivations_agree (pid : Nat) (mint : Address) :
    (derivePDAs pid mint).lockPda = (derivePdas pid mint).lockPda ∧
    (derivePDAs pid mint).vaultPda = (derivePdas pid mint).vaultPda ∧
    (derivePdas pid mint).lockPda = (pdasClient pid mint).lockPda ∧
    (derivePdas pid mint).vaultPda = (pdasClient pid mint).vaultPda ∧
    (derivePDAs pid mint).lockPda =
      (findProgramAddressSync [asciiBytes "lock", mintToBuffer mint] pid).1 ∧
    (derivePDAs pid mint).vaultPda =
      (findProgramAddressSync [asciiBytes "vault", mintToBuffer mint] pid).1 :=
  ⟨rfl, rfl, rfl, rfl, rfl, rfl⟩

/-- C9: in the mirror store, every row the insert route creates carries
`status = "active"` with empty withdrawal fields; the withdraw route's
update either leaves a row untouched or moves it from `"active"` to
`"withdrawn"` while setting `withdrawn_at` and `withdraw_tx`; and a row
that is `"withdrawn"` persists unchanged through every later operation —
once withdrawn, withdrawn forever. -/
theorem c9_mirror_status_monotone :
    (∀ (table : List FeeLockRow) (nextId : Nat) (mint cw va ua : String)
        (t' : List FeeLockRow),
        postFeeLocks table nextId mint cw va ua = some t' →
        ∀ r ∈ t', r ∈ table ∨
          (r.status = "active" ∧ r.withdrawn_at = none ∧
            r.withdraw_tx = none)) ∧
    (∀ (mint cw ts tx : String) (r : FeeLockRow),
        markWithdrawnRow mint cw ts tx r = r ∨
        (r.status = "active" ∧
          (markWithdrawnRow mint cw ts tx r).status = "withdrawn" ∧
          (markWithdrawnRow mint cw ts tx r).withdrawn_at = some ts ∧
          (markWithdrawnRow mint cw ts tx r).withdraw_tx = some tx)) ∧
    (∀ (table : List FeeLockRow) (es : List MirrorEvent) (r : FeeLockRow),
        r ∈ table → r.status = "withdrawn" → r ∈ runMirror table es) := by
  refine ⟨?_, ?_, ?_⟩
  · intro table nextId mint cw va ua t' h r hr
    by_cases hemp : (table.filter (isActiveLockFor mint)).isEmpty = true
    · simp [postFeeLocks, hemp] at h
      rw [← h] at hr
      rcases List.mem_append.mp hr with h1 | h2
      · exact Or.inl h1
      · right
        simp at h2
        rw [h2]
        exact ⟨rfl, rfl, rfl⟩
    · simp [postFeeLocks, hemp] at h
  · intro mint cw ts tx r
    by_cases hcond : (r.mint == mint && r.creator_wallet == cw &&
        r.status == "active") = true
    · right
      have hst : r.status = "active" := by
        have h2 := (Bool.and_eq_true _ _).mp hcond
        exact beq_iff_eq.mp h2.2
      exact ⟨hst, by simp [markWithdrawnRow, hcond],
        by simp [markWithdrawnRow, hcond],
        by simp [markWithdrawnRow, hcond]⟩
    · left
      simp only [Bool.not_eq_true] at hcond
      simp [markWithdrawnRow, hcond]
  · intro table es r hr hw
    exact withdrawnRow_persists es table r hr hw

theorem c9_witness :
    (⟨1, "m", "c", "v", "u", "withdrawn", some "t0", some "x0"⟩ : FeeLockRow)
        ∈ [(⟨1, "m", "c", "v", "u", "withdrawn", some "t0", some "x0"⟩ :
            FeeLockRow)] ∧
      (⟨1, "m", "c", "v", "u", "withdrawn", some "t0", some "x0"⟩ :
          FeeLockRow).status = "withdrawn" ∧
      (⟨1, "m", "c", "v", "u", "withdrawn", some "t0", some "x0"⟩ :
          FeeLockRow) ∈
        runMirror
          [(⟨1, "m", "c", "v", "u", "withdrawn", some "t0", some "x0"⟩ :
              FeeLockRow)]
          [.markWithdrawn "m" "c" "t1" "x1", .createRow 2 "m" "c" "v" "u2"] :=
  ⟨List.mem_singleton.mpr rfl, rfl,
    c9_mirror_status_monotone.2.2
      [⟨1, "m", "c", "v", "u", "withdrawn", some "t0", some "x0"⟩]
      [.markWithdrawn "m" "c" "t1" "x1", .createRow 2 "m" "c" "v" "u2"]
      ⟨1, "m", "c", "v", "u", "withdrawn", some "t0", some "x0"⟩
      (List.mem_singleton.mpr rfl) rfl⟩

/-- C10: the client offers the Withdraw action for a present lock exactly
when the lock's mirror status is `"active"`, the mirror-reported vault
balance exists and is at least 10,000,000 lamports (0.01 SOL), and the
countdown computed from the unlock time is expired (unlock time not after
now). In particular a lock past its unlock time whose vault holds less
than 0.01 SOL cannot be withdrawn through the interface. -/
theorem c10_withdraw_gate_ui (l : FeeLock) (vaultBalance : Option VaultBalance)
    (unlockTimeMs nowMs : Int) :
    canWithdraw (some l) vaultBalance
        (some (calculateCountdown unlockTimeMs nowMs)) = true ↔
      l.status = "active" ∧
        (∃ vb, vaultBalance = some vb ∧
          FEES_DETECTED_THRESHOLD_LAMPORTS ≤ vb.lamports) ∧
        unlockTimeMs ≤ nowMs := by
  cases vaultBalance with
  | none => simp [canWithdraw, feesDetected]
  | some vb =>
      simp [canWithdraw, feesDetected, Bool.and_eq_true, beq_iff_eq,
        calculateCountdown_expired, decide_eq_true_eq, and_assoc]

end Fluxur
